import Mathlib

/-!
# Cloudflare store of cert-manager-sync

A shallow embedding of `stores/cloudflare/cloudflare.go`:
`CloudflareStore.GetApiKey`, `CloudflareStore.ParseCertificate` and
`CloudflareStore.Update`, followed by the properties established about them.

Modelling conventions.

* A Go `string` is a Lean `String`; a Go `[]byte` is `Option String`
  (`none` is the nil slice, `some b` a non-nil slice holding `b`, possibly of
  length zero). The code only tests byte slices against nil and converts them
  with `string(...)`.
* A Go map is `GoMap`: nil, or a list of entries. Reading a nil map or an absent
  key gives the zero value; assigning into a nil map panics.
* Methods on `*CloudflareStore` mutate the receiver; here they take the store
  and return the store they leave behind. `Update` also mutates `*corev1.Secret`
  and returns the secret it leaves behind.
* The collaborators the file calls but does not define (the Kubernetes client,
  the Cloudflare client, `tlssecret.ParseSecret`, `state.OperatorName`) are the
  fields of `Env`. Each run records the calls made to the Kubernetes and
  Cloudflare clients, with their answers, in a trace. `cloudflare.New` only
  builds a client value and is not recorded. Logging is left out.
* A run of a function ends in `Ret.nil` (returned nil), `Ret.err e` (returned
  the error `e`) or `Ret.panic` (index out of range, assignment to a nil map).
-/

namespace Cloudflare

/-! ## Go values -/

/-- A Go `error` value that is not nil. -/
inductive GoError where
  /-- The value of `fmt.Errorf` with the formatted message. -/
  | Errorf (msg : String)
  /-- An error handed back by a collaborator (Kubernetes or Cloudflare client). -/
  | collaborator (msg : String)
  deriving DecidableEq, Repr

/-- The pair `(value, error)` a Go call returns. -/
inductive Result (α : Type) where
  | ok (v : α)
  | err (e : GoError)
  deriving DecidableEq, Repr

/-- How a call of a function returning `error` ends. -/
inductive Ret where
  | nil
  | err (e : GoError)
  | panic
  deriving DecidableEq, Repr

/-- A Go byte slice: `none` is nil, `some b` is a non-nil slice with content `b`. -/
abbrev ByteSlice := Option String

/-- The Go conversion `string(b)` of a byte slice; the nil slice converts to `""`. -/
def string (b : ByteSlice) : String := b.getD ""

/-- A Go `map[string]ν`: `none` is the nil map. -/
structure GoMap (ν : Type) where
  entries : Option (List (String × ν))
  deriving DecidableEq, Repr

namespace GoMap

/-- The first value bound to `k` in a list of entries. -/
def find {ν : Type} (k : String) : List (String × ν) → Option ν
  | [] => none
  | (k1, v1) :: es => if k1 = k then some v1 else find k es

/-- Rebinds `k` to `v` in a list of entries, adding the entry when `k` is new. -/
def put {ν : Type} (k : String) (v : ν) : List (String × ν) → List (String × ν)
  | [] => [(k, v)]
  | (k1, v1) :: es => if k1 = k then (k, v) :: es else (k1, v1) :: put k v es

/-- The two-valued read `v, ok := m[k]`: `none` when the key is absent. -/
def lookup {ν : Type} (m : GoMap ν) (k : String) : Option ν :=
  match m.entries with
  | none => none
  | some es => find k es

/-- The read `m[k]`, with `zero` the zero value of the element type. -/
def index {ν : Type} (m : GoMap ν) (zero : ν) (k : String) : ν :=
  (m.lookup k).getD zero

/-- The assignment `m[k] = v`; `none` is the panic of assigning into a nil map. -/
def assign {ν : Type} (m : GoMap ν) (k : String) (v : ν) : Option (GoMap ν) :=
  match m.entries with
  | none => none
  | some es => some ⟨some (put k v es)⟩

end GoMap

/-- The read `m[k]` of a `map[string]string`. -/
def GoMap.str (m : GoMap String) (k : String) : String := m.index "" k

/-- The read `m[k]` of a `map[string][]byte`. -/
def GoMap.bytes (m : GoMap ByteSlice) (k : String) : ByteSlice := m.index none k

namespace strings

/-- Go `strings.Contains(s, sep)` for a separator of one character, as at the
call site `strings.Contains(s.SecretName, "/")`. -/
def Contains (s : String) (sep : Char) : Bool := s.data.contains sep

/-- The segments of a character list cut at every `sep`: the first segment and
the list of the following ones. -/
def cut (sep : Char) : List Char → List Char × List (List Char)
  | [] => ([], [])
  | c :: cs =>
    if c = sep then ([], (cut sep cs).1 :: (cut sep cs).2)
    else (c :: (cut sep cs).1, (cut sep cs).2)

/-- Go `strings.Split(s, sep)` for a separator of one character, as at the call
sites `strings.Split(s.SecretName, "/")`. -/
def Split (s : String) (sep : Char) : List String :=
  ((cut sep s.data).1 :: (cut sep s.data).2).map String.mk

end strings

/-! ## Data model -/

/-- The fields of `corev1.Secret` the code touches (`ObjectMeta` flattened). -/
structure Secret where
  Name : String
  Namespace : String
  Annotations : GoMap String
  Data : GoMap ByteSlice
  deriving DecidableEq, Repr

/-- The parts of `tlssecret.Certificate` the code touches: the annotation map,
the value of the method `FullChain()` and the field `Key`. -/
structure Certificate where
  Annotations : GoMap String
  FullChain : ByteSlice
  Key : ByteSlice
  deriving DecidableEq, Repr

/-- The struct `CloudflareStore`. -/
structure CloudflareStore where
  SecretName : String := ""
  SecretNamespace : String := ""
  ApiKey : String := ""
  ApiEmail : String := ""
  ZoneId : String := ""
  CertId : String := ""
  deriving DecidableEq, Repr

/-- The fields of `cloudflare.ZoneCustomSSLOptions` the code sets. -/
structure ZoneCustomSSLOptions where
  Certificate : String
  PrivateKey : String
  deriving DecidableEq, Repr

/-- The field of `cloudflare.ZoneCustomSSL` the code reads. -/
structure ZoneCustomSSL where
  ID : String
  deriving DecidableEq, Repr

/-- The client value `cloudflare.New` builds from a key and an email. -/
structure API where
  APIKey : String
  APIEmail : String
  deriving DecidableEq, Repr

/-- What the file calls but does not define. -/
structure Env where
  /-- The constant `state.OperatorName`. -/
  OperatorName : String
  /-- The function `tlssecret.ParseSecret`; line 72 binds its one result, a
  certificate, and no error. -/
  ParseSecret : Secret → Certificate
  /-- The call `state.KubeClient.CoreV1().Secrets(ns).Get(ctx, name, opts)`. -/
  SecretsGet : String → String → Result Secret
  /-- The call `state.KubeClient.CoreV1().Secrets(ns).Update(ctx, secret, opts)`,
  reduced to the error it returns. -/
  SecretsUpdate : String → Secret → Option GoError
  /-- The call `cloudflare.New(key, email)`. -/
  New : String → String → Result API
  /-- The call `client.CreateSSL(ctx, zone, options)`. -/
  CreateSSL : API → String → ZoneCustomSSLOptions → Result ZoneCustomSSL
  /-- The call `client.UpdateSSL(ctx, zone, id, options)`. -/
  UpdateSSL : API → String → String → ZoneCustomSSLOptions → Result ZoneCustomSSL

/-- A call made to the Kubernetes or Cloudflare client, with its answer. -/
inductive Event where
  | SecretsGet (ns name : String) (res : Result Secret)
  | CreateSSL (client : API) (zone : String) (options : ZoneCustomSSLOptions)
      (res : Result ZoneCustomSSL)
  | UpdateSSL (client : API) (zone id : String) (options : ZoneCustomSSLOptions)
      (res : Result ZoneCustomSSL)
  | SecretsUpdate (ns : String) (secret : Secret) (res : Option GoError)
  deriving DecidableEq, Repr

/-- Whether the event is a Cloudflare certificate call. -/
def Event.isSSL : Event → Bool
  | .CreateSSL .. => true
  | .UpdateSSL .. => true
  | _ => false

/-- Whether the event is the secret-persistence call. -/
def Event.isSecretsUpdate : Event → Bool
  | .SecretsUpdate .. => true
  | _ => false

/-- Whether the event is a fetch of a credential secret. -/
def Event.isSecretsGet : Event → Bool
  | .SecretsGet .. => true
  | _ => false

/-- The annotation key `state.OperatorName+"/cloudflare-secret-name"`. -/
def secretNameKey (op : String) : String := op ++ "/cloudflare-secret-name"

/-- The annotation key `state.OperatorName+"/cloudflare-zone-id"`. -/
def zoneIdKey (op : String) : String := op ++ "/cloudflare-zone-id"

/-- The annotation key `state.OperatorName+"/cloudflare-cert-id"`. -/
def certIdKey (op : String) : String := op ++ "/cloudflare-cert-id"

/-! ## The three methods -/

/-- The method `GetApiKey` (lines 25-40): the store it leaves, how it ends, and
the call it made. -/
def GetApiKey (env : Env) (s : CloudflareStore) : CloudflareStore × Ret × List Event :=
  let res := env.SecretsGet s.SecretNamespace s.SecretName
  let tr := [Event.SecretsGet s.SecretNamespace s.SecretName res]
  match res with
  | .err e => (s, .err e, tr)
  | .ok sc =>
    if sc.Data.bytes "api_key" = none then
      (s, .err (.Errorf ("api_key not found in secret " ++ s.SecretNamespace ++ "/" ++ s.SecretName)), tr)
    else if sc.Data.bytes "email" = none then
      (s, .err (.Errorf ("email not found in secret " ++ s.SecretNamespace ++ "/" ++ s.SecretName)), tr)
    else
      ({ s with ApiKey := string (sc.Data.bytes "api_key"),
                ApiEmail := string (sc.Data.bytes "email") }, .nil, tr)

/-- Lines 47-55 of `ParseCertificate`: each of the three fields takes the value
of its annotation when that value is not empty. -/
def readAnnotations (op : String) (s : CloudflareStore) (c : Certificate) : CloudflareStore :=
  let s1 := if c.Annotations.str (secretNameKey op) ≠ "" then
      { s with SecretName := c.Annotations.str (secretNameKey op) } else s
  let s2 := if c.Annotations.str (zoneIdKey op) ≠ "" then
      { s1 with ZoneId := c.Annotations.str (zoneIdKey op) } else s1
  if c.Annotations.str (certIdKey op) ≠ "" then
    { s2 with CertId := c.Annotations.str (certIdKey op) } else s2

/-- Lines 56-61 of `ParseCertificate`: a name of the form namespace/name is
split; an index out of range is a panic. -/
def splitSecretName (s : CloudflareStore) : CloudflareStore × Ret :=
  if strings.Contains s.SecretName '/' then
    match (strings.Split s.SecretName '/')[0]? with
    | none => (s, .panic)
    | some ns =>
      let s1 := { s with SecretNamespace := ns }
      match (strings.Split s1.SecretName '/')[1]? with
      | none => (s1, .panic)
      | some n => ({ s1 with SecretName := n }, .nil)
  else (s, .nil)

/-- The method `ParseCertificate` (lines 42-62). -/
def ParseCertificate (op : String) (s : CloudflareStore) (c : Certificate) :
    CloudflareStore × Ret :=
  splitSecretName (readAnnotations op s c)

/-- What a call of `Update` leaves behind. -/
structure Run where
  ret : Ret
  store : CloudflareStore
  secret : Secret
  trace : List Event
  deriving DecidableEq, Repr

/-- Lines 112-131 of `Update`: record the id the remote call returned and, when
it differs from `origCertId`, write it to the annotation and persist the secret. -/
def recordCertId (env : Env) (s : CloudflareStore) (secret : Secret) (origCertId : String)
    (sslCert : ZoneCustomSSL) (tr : List Event) : Run :=
  let s1 := { s with CertId := sslCert.ID }
  if origCertId ≠ s1.CertId then
    match secret.Annotations.assign (certIdKey env.OperatorName) s1.CertId with
    | none => ⟨.panic, s1, secret, tr⟩
    | some anns =>
      let secret1 := { secret with Annotations := anns }
      let uerr := env.SecretsUpdate secret1.Namespace secret1
      let tr1 := tr ++ [Event.SecretsUpdate secret1.Namespace secret1 uerr]
      match uerr with
      | some e => ⟨.err e, s1, secret1, tr1⟩
      | none => ⟨.nil, s1, secret1, tr1⟩
  else ⟨.nil, s1, secret, tr⟩

/-- Lines 88-111 of `Update`: build the client and make the create or update
call, then go on at line 112. -/
def upsert (env : Env) (s : CloudflareStore) (secret : Secret) (c : Certificate)
    (tr : List Event) : Run :=
  match env.New s.ApiKey s.ApiEmail with
  | .err e => ⟨.err e, s, secret, tr⟩
  | .ok client =>
    let certRequest : ZoneCustomSSLOptions :=
      { Certificate := string c.FullChain, PrivateKey := string c.Key }
    let origCertId := s.CertId
    if s.CertId ≠ "" then
      let res := env.UpdateSSL client s.ZoneId s.CertId certRequest
      let tr1 := tr ++ [Event.UpdateSSL client s.ZoneId s.CertId certRequest res]
      match res with
      | .err e => ⟨.err e, s, secret, tr1⟩
      | .ok sslCert => recordCertId env s secret origCertId sslCert tr1
    else
      let res := env.CreateSSL client s.ZoneId certRequest
      let tr1 := tr ++ [Event.CreateSSL client s.ZoneId certRequest res]
      match res with
      | .err e => ⟨.err e, s, secret, tr1⟩
      | .ok sslCert => recordCertId env s secret origCertId sslCert tr1

/-- Lines 77-79 of `Update`: an empty namespace becomes the namespace of the
certificate secret. -/
def defaultNamespace (s : CloudflareStore) (secret : Secret) : CloudflareStore :=
  if s.SecretNamespace = "" then { s with SecretNamespace := secret.Namespace } else s

/-- The method `Update` (lines 64-132). -/
def Update (env : Env) (s : CloudflareStore) (secret : Secret) : Run :=
  let c := env.ParseSecret secret
  match ParseCertificate env.OperatorName s c with
  | (s1, .err e) => ⟨.err e, s1, secret, []⟩
  | (s1, .panic) => ⟨.panic, s1, secret, []⟩
  | (s1, .nil) =>
    let s2 := defaultNamespace s1 secret
    if s2.SecretName = "" then
      ⟨.err (.Errorf "secret name not found in certificate annotations"), s2, secret, []⟩
    else
      match GetApiKey env s2 with
      | (s3, .err e, tr) => ⟨.err e, s3, secret, tr⟩
      | (s3, .panic, tr) => ⟨.panic, s3, secret, tr⟩
      | (s3, .nil, tr) => upsert env s3 secret c tr

/-- The store `Update` holds at line 80, after `ParseCertificate` and the
defaulting of the namespace. -/
def resolve (env : Env) (s : CloudflareStore) (secret : Secret) : CloudflareStore :=
  defaultNamespace (ParseCertificate env.OperatorName s (env.ParseSecret secret)).1 secret

/-- The event of the one call `GetApiKey` makes from store `s`. -/
def getEvent (env : Env) (s : CloudflareStore) : Event :=
  Event.SecretsGet s.SecretNamespace s.SecretName (env.SecretsGet s.SecretNamespace s.SecretName)

/-- The request of lines 93-96. -/
def certRequest (c : Certificate) : ZoneCustomSSLOptions :=
  { Certificate := string c.FullChain, PrivateKey := string c.Key }

/-- The id a Cloudflare certificate call answered, when the event is one that
succeeded. -/
def Event.sslId : Event → Option String
  | .CreateSSL _ _ _ (.ok sslCert) => some sslCert.ID
  | .UpdateSSL _ _ _ _ (.ok sslCert) => some sslCert.ID
  | _ => none

/-- The answer of the certificate call of lines 99-111, made through `client`
from store `s`: an update when the store holds a certificate id, else a create. -/
def sslResult (env : Env) (client : API) (s : CloudflareStore) (c : Certificate) :
    Result ZoneCustomSSL :=
  if s.CertId ≠ "" then env.UpdateSSL client s.ZoneId s.CertId (certRequest c)
  else env.CreateSSL client s.ZoneId (certRequest c)

/-- The event of the certificate call of lines 99-111. -/
def sslEvent (env : Env) (client : API) (s : CloudflareStore) (c : Certificate) : Event :=
  if s.CertId ≠ "" then
    Event.UpdateSSL client s.ZoneId s.CertId (certRequest c)
      (env.UpdateSSL client s.ZoneId s.CertId (certRequest c))
  else
    Event.CreateSSL client s.ZoneId (certRequest c) (env.CreateSSL client s.ZoneId (certRequest c))

/-! ## A concrete environment -/

/-- An operator name for the examples. -/
def exOperatorName : String := "cert-manager-sync.lestak.sh"

/-- A credential secret with both fields set. -/
def exCreds : Secret :=
  { Name := "cf-creds", Namespace := "default", Annotations := ⟨none⟩,
    Data := ⟨some [("api_key", some "k3y"), ("email", some "ops@example.com")]⟩ }

/-- An environment for the examples: the certificate carries the annotations of
the secret and the data fields `tls.crt` and `tls.key`; the cluster holds
`default/cf-creds`; creating a certificate answers id `abc`, updating one
answers the id it was given; persisting succeeds. -/
def exEnv : Env :=
  { OperatorName := exOperatorName
    ParseSecret := fun secret =>
      { Annotations := secret.Annotations
        FullChain := secret.Data.bytes "tls.crt"
        Key := secret.Data.bytes "tls.key" }
    SecretsGet := fun ns name =>
      if ns = "default" ∧ name = "cf-creds" then .ok exCreds
      else .err (.collaborator "secrets not found")
    SecretsUpdate := fun _ _ => none
    New := fun key email => .ok ⟨key, email⟩
    CreateSSL := fun _ _ _ => .ok ⟨"abc"⟩
    UpdateSSL := fun _ _ id _ => .ok ⟨id⟩ }

/-- A credential secret whose `api_key` field is present, not nil, and of length
zero. -/
def exEmptyKeyCreds : Secret :=
  { Name := "cf-creds", Namespace := "default", Annotations := ⟨none⟩,
    Data := ⟨some [("api_key", some ""), ("email", some "ops@example.com")]⟩ }

/-- The example environment with `default/cf-creds` holding an empty `api_key`. -/
def exEmptyKeyEnv : Env :=
  { exEnv with SecretsGet := fun _ _ => .ok exEmptyKeyCreds }

/-- The example environment with no credential secret in the cluster. -/
def exNoCredsEnv : Env :=
  { exEnv with SecretsGet := fun _ _ => .err (.collaborator "secrets not found") }

/-- A certificate secret whose credential reference has an empty name segment. -/
def exNoNameSecret : Secret :=
  { Name := "example-tls", Namespace := "default",
    Annotations := ⟨some [(secretNameKey exOperatorName, "ops/"),
                          (zoneIdKey exOperatorName, "zone123")]⟩,
    Data := ⟨some [("tls.crt", some "CHAIN"), ("tls.key", some "KEY")]⟩ }

/-- A certificate secret whose chain is not PEM. -/
def exBadChainSecret : Secret :=
  { Name := "example-tls", Namespace := "default",
    Annotations := ⟨some [(secretNameKey exOperatorName, "default/cf-creds"),
                          (zoneIdKey exOperatorName, "zone123")]⟩,
    Data := ⟨some [("tls.crt", some "this is not PEM"), ("tls.key", some "KEY")]⟩ }

/-- The scenario secret after a first sync recorded the id `abc`. -/
def exSyncedSecret : Secret :=
  { Name := "example-tls", Namespace := "default",
    Annotations := ⟨some [(secretNameKey exOperatorName, "default/cf-creds"),
                          (zoneIdKey exOperatorName, "zone123"),
                          (certIdKey exOperatorName, "abc")]⟩,
    Data := ⟨some [("tls.crt", some "CHAIN"), ("tls.key", some "KEY")]⟩ }

/-- A certificate secret in namespace `web` with a bare credential reference. -/
def exBareSecret : Secret :=
  { Name := "example-tls", Namespace := "web",
    Annotations := ⟨some [(secretNameKey exOperatorName, "tls-creds")]⟩,
    Data := ⟨some [("tls.crt", some "CHAIN"), ("tls.key", some "KEY")]⟩ }

/-- The certificate secret of the scenario: `default/example-tls`, pointing at
`default/cf-creds` and zone `zone123`, with no recorded certificate id. -/
def exSecret : Secret :=
  { Name := "example-tls", Namespace := "default",
    Annotations := ⟨some [(secretNameKey exOperatorName, "default/cf-creds"),
                          (zoneIdKey exOperatorName, "zone123")]⟩,
    Data := ⟨some [("tls.crt", some "CHAIN"), ("tls.key", some "KEY")]⟩ }

/-! ## Maps, keys and strings -/

theorem GoMap.find_put_same {ν : Type} (k : String) (v : ν) (es : List (String × ν)) :
    GoMap.find k (GoMap.put k v es) = some v := by
  induction es with
  | nil => simp [GoMap.put, GoMap.find]
  | cons e es ih =>
    obtain ⟨k1, v1⟩ := e
    by_cases h : k1 = k
    · simp [GoMap.put, GoMap.find, h]
    · simp [GoMap.put, GoMap.find, h, ih]

theorem GoMap.find_put_other {ν : Type} (k j : String) (v : ν) (es : List (String × ν))
    (h : j ≠ k) : GoMap.find j (GoMap.put k v es) = GoMap.find j es := by
  induction es with
  | nil => simp [GoMap.put, GoMap.find, Ne.symm h]
  | cons e es ih =>
    obtain ⟨k1, v1⟩ := e
    by_cases h1 : k1 = k
    · subst h1
      simp [GoMap.put, GoMap.find, Ne.symm h]
    · by_cases h2 : k1 = j
      · subst h2
        simp [GoMap.put, GoMap.find, h]
      · simp [GoMap.put, GoMap.find, h1, h2, ih]

theorem GoMap.lookup_assign_same {ν : Type} (m m1 : GoMap ν) (k : String) (v : ν)
    (h : m.assign k v = some m1) : m1.lookup k = some v := by
  unfold GoMap.assign at h
  split at h
  · simp at h
  · simp only [Option.some.injEq] at h
    subst h
    simp [GoMap.lookup, GoMap.find_put_same]

theorem GoMap.lookup_assign_other {ν : Type} (m m1 : GoMap ν) (k j : String) (v : ν)
    (h : m.assign k v = some m1) (hj : j ≠ k) : m1.lookup j = m.lookup j := by
  unfold GoMap.assign at h
  split at h
  · simp at h
  · rename_i es hes
    simp only [Option.some.injEq] at h
    subst h
    simp [GoMap.lookup, hes, GoMap.find_put_other k j v es hj]

theorem GoMap.assign_isSome {ν : Type} (m : GoMap ν) (k : String) (v : ν)
    (h : m.entries ≠ none) : ∃ m1, m.assign k v = some m1 := by
  unfold GoMap.assign
  split
  · contradiction
  · exact ⟨_, rfl⟩

theorem GoMap.str_eq_empty_of_nil (m : GoMap String) (k : String) (h : m.entries = none) :
    m.str k = "" := by
  simp [GoMap.str, GoMap.index, GoMap.lookup, h]

theorem GoMap.str_eq_empty_of_absent (m : GoMap String) (k : String)
    (h : m.lookup k = none) : m.str k = "" := by
  simp [GoMap.str, GoMap.index, h]

theorem GoMap.bytes_eq_nil_of_absent (m : GoMap ByteSlice) (k : String)
    (h : m.lookup k = none) : m.bytes k = none := by
  simp [GoMap.bytes, GoMap.index, h]

theorem append_left_cancel_str (op a b : String) (h : op ++ a = op ++ b) : a = b := by
  have h1 := congrArg String.data h
  simp only [String.data_append] at h1
  exact String.ext (List.append_cancel_left h1)

theorem secretNameKey_ne_certIdKey (op : String) : secretNameKey op ≠ certIdKey op := by
  intro h
  have := append_left_cancel_str _ _ _ h
  revert this
  decide

theorem zoneIdKey_ne_certIdKey (op : String) : zoneIdKey op ≠ certIdKey op := by
  intro h
  have := append_left_cancel_str _ _ _ h
  revert this
  decide

theorem strings.cut_snd_ne_nil (sep : Char) (l : List Char) (h : sep ∈ l) :
    (strings.cut sep l).2 ≠ [] := by
  induction l with
  | nil => simp at h
  | cons c cs ih =>
    by_cases hc : c = sep
    · simp [strings.cut, hc]
    · have hmem : sep ∈ cs := by
        rcases List.mem_cons.mp h with h1 | h1
        · exact absurd h1.symm hc
        · exact h1
      simp [strings.cut, hc, ih hmem]

theorem strings.cut_of_not_mem (sep : Char) (l : List Char) (h : sep ∉ l) :
    strings.cut sep l = (l, []) := by
  induction l with
  | nil => rfl
  | cons c cs ih =>
    have hc : c ≠ sep := fun e => h (by simp [e])
    have hcs : sep ∉ cs := fun e => h (by simp [e])
    simp [strings.cut, hc, ih hcs]

theorem strings.cut_append (sep : Char) (l r : List Char) (h : sep ∉ l) :
    strings.cut sep (l ++ sep :: r) = (l, (strings.cut sep r).1 :: (strings.cut sep r).2) := by
  induction l with
  | nil => simp [strings.cut]
  | cons c cs ih =>
    have hc : c ≠ sep := fun e => h (by simp [e])
    have hcs : sep ∉ cs := fun e => h (by simp [e])
    simp [strings.cut, hc, ih hcs]

theorem strings.Contains_iff (s : String) (sep : Char) :
    strings.Contains s sep = true ↔ sep ∈ s.data := by
  simp [strings.Contains]

theorem strings.Split_two (s : String) (sep : Char) (h : strings.Contains s sep = true) :
    ∃ a b rest, strings.Split s sep = a :: b :: rest := by
  have hne := strings.cut_snd_ne_nil sep s.data ((strings.Contains_iff s sep).mp h)
  unfold strings.Split
  cases hc : (strings.cut sep s.data).2 with
  | nil => exact absurd hc hne
  | cons b rest => exact ⟨_, _, _, rfl⟩

theorem strings.Split_of_not_mem_append (a b : String) (sep : Char) (ha : sep ∉ a.data)
    (hb : sep ∉ b.data) :
    strings.Split (a ++ String.singleton sep ++ b) sep = [a, b] := by
  unfold strings.Split
  have hd : (a ++ String.singleton sep ++ b).data = a.data ++ sep :: b.data := by
    simp [String.data_append, String.singleton]
  rw [hd, strings.cut_append sep _ _ ha, strings.cut_of_not_mem sep _ hb]
  simp

/-! ## The methods, path by path -/

theorem splitSecretName_ret (s : CloudflareStore) : (splitSecretName s).2 = Ret.nil := by
  unfold splitSecretName
  split
  · rename_i h
    obtain ⟨a, b, rest, hab⟩ := strings.Split_two s.SecretName '/' h
    simp [hab]
  · rfl

theorem ParseCertificate_ret (op : String) (s : CloudflareStore) (c : Certificate) :
    (ParseCertificate op s c).2 = Ret.nil :=
  splitSecretName_ret _

theorem GetApiKey_of_err (env : Env) (s : CloudflareStore) (e : GoError)
    (h : env.SecretsGet s.SecretNamespace s.SecretName = Result.err e) :
    GetApiKey env s = (s, Ret.err e, [getEvent env s]) := by
  simp only [GetApiKey, getEvent, h]

theorem GetApiKey_of_ok (env : Env) (s : CloudflareStore) (sc : Secret)
    (h : env.SecretsGet s.SecretNamespace s.SecretName = Result.ok sc) :
    GetApiKey env s =
      if sc.Data.bytes "api_key" = none then
        (s, Ret.err (GoError.Errorf
          ("api_key not found in secret " ++ s.SecretNamespace ++ "/" ++ s.SecretName)),
          [getEvent env s])
      else if sc.Data.bytes "email" = none then
        (s, Ret.err (GoError.Errorf
          ("email not found in secret " ++ s.SecretNamespace ++ "/" ++ s.SecretName)),
          [getEvent env s])
      else
        ({ s with ApiKey := string (sc.Data.bytes "api_key"),
                  ApiEmail := string (sc.Data.bytes "email") }, Ret.nil, [getEvent env s]) := by
  simp only [GetApiKey, getEvent, h]

theorem GetApiKey_trace (env : Env) (s : CloudflareStore) :
    (GetApiKey env s).2.2 = [getEvent env s] := by
  cases h : env.SecretsGet s.SecretNamespace s.SecretName with
  | err e => rw [GetApiKey_of_err env s e h]
  | ok sc =>
    rw [GetApiKey_of_ok env s sc h]
    split
    · rfl
    · split <;> rfl

theorem GetApiKey_ret_ne_panic (env : Env) (s : CloudflareStore) :
    (GetApiKey env s).2.1 ≠ Ret.panic := by
  cases h : env.SecretsGet s.SecretNamespace s.SecretName with
  | err e => rw [GetApiKey_of_err env s e h]; simp
  | ok sc =>
    rw [GetApiKey_of_ok env s sc h]
    split
    · simp
    · split <;> simp

theorem GetApiKey_err_store (env : Env) (s : CloudflareStore) (e : GoError)
    (h : (GetApiKey env s).2.1 = Ret.err e) : (GetApiKey env s).1 = s := by
  cases hres : env.SecretsGet s.SecretNamespace s.SecretName with
  | err e1 => rw [GetApiKey_of_err env s e1 hres]
  | ok sc =>
    rw [GetApiKey_of_ok env s sc hres] at h ⊢
    split
    · rfl
    · split
      · rfl
      · rename_i h1 h2
        simp [h1, h2] at h

theorem GetApiKey_nil (env : Env) (s : CloudflareStore)
    (h : (GetApiKey env s).2.1 = Ret.nil) :
    ∃ sc, env.SecretsGet s.SecretNamespace s.SecretName = Result.ok sc ∧
      sc.Data.bytes "api_key" ≠ none ∧ sc.Data.bytes "email" ≠ none ∧
      (GetApiKey env s).1 = { s with ApiKey := string (sc.Data.bytes "api_key"),
                                     ApiEmail := string (sc.Data.bytes "email") } := by
  cases hres : env.SecretsGet s.SecretNamespace s.SecretName with
  | err e1 =>
    rw [GetApiKey_of_err env s e1 hres] at h
    simp at h
  | ok sc =>
    rw [GetApiKey_of_ok env s sc hres] at h ⊢
    refine ⟨sc, rfl, ?_⟩
    by_cases h1 : sc.Data.bytes "api_key" = none
    · simp [h1] at h
    · by_cases h2 : sc.Data.bytes "email" = none
      · simp [h1, h2] at h
      · simp [h1, h2]

theorem Update_unfold (env : Env) (s : CloudflareStore) (secret : Secret) :
    Update env s secret =
      if (resolve env s secret).SecretName = "" then
        ⟨Ret.err (GoError.Errorf "secret name not found in certificate annotations"),
          resolve env s secret, secret, []⟩
      else
        match GetApiKey env (resolve env s secret) with
        | (s3, Ret.err e, tr) => ⟨Ret.err e, s3, secret, tr⟩
        | (s3, Ret.panic, tr) => ⟨Ret.panic, s3, secret, tr⟩
        | (s3, Ret.nil, tr) => upsert env s3 secret (env.ParseSecret secret) tr := by
  have hr := ParseCertificate_ret env.OperatorName s (env.ParseSecret secret)
  unfold Update resolve
  dsimp only
  generalize ParseCertificate env.OperatorName s (env.ParseSecret secret) = pc at hr ⊢
  obtain ⟨s1, r⟩ := pc
  simp only at hr
  subst hr
  rfl

theorem Update_of_name_empty (env : Env) (s : CloudflareStore) (secret : Secret)
    (h : (resolve env s secret).SecretName = "") :
    Update env s secret =
      ⟨Ret.err (GoError.Errorf "secret name not found in certificate annotations"),
        resolve env s secret, secret, []⟩ := by
  rw [Update_unfold, if_pos h]

theorem Update_of_GetApiKey_err (env : Env) (s : CloudflareStore) (secret : Secret)
    (e : GoError) (h : (resolve env s secret).SecretName ≠ "")
    (hg : (GetApiKey env (resolve env s secret)).2.1 = Ret.err e) :
    Update env s secret =
      ⟨Ret.err e, resolve env s secret, secret, [getEvent env (resolve env s secret)]⟩ := by
  have hst := GetApiKey_err_store env _ e hg
  have htr := GetApiKey_trace env (resolve env s secret)
  rw [Update_unfold, if_neg h]
  generalize GetApiKey env (resolve env s secret) = g at hg hst htr ⊢
  obtain ⟨s3, r, tr⟩ := g
  simp only at hg hst htr
  subst hg hst htr
  rfl

theorem Update_of_GetApiKey_nil (env : Env) (s : CloudflareStore) (secret : Secret)
    (h : (resolve env s secret).SecretName ≠ "")
    (hg : (GetApiKey env (resolve env s secret)).2.1 = Ret.nil) :
    Update env s secret =
      upsert env (GetApiKey env (resolve env s secret)).1 secret (env.ParseSecret secret)
        [getEvent env (resolve env s secret)] := by
  have htr := GetApiKey_trace env (resolve env s secret)
  rw [Update_unfold, if_neg h]
  generalize GetApiKey env (resolve env s secret) = g at hg htr ⊢
  obtain ⟨s3, r, tr⟩ := g
  simp only at hg htr
  subst hg htr
  rfl

theorem upsert_of_New_err (env : Env) (s : CloudflareStore) (secret : Secret)
    (c : Certificate) (tr : List Event) (e : GoError)
    (h : env.New s.ApiKey s.ApiEmail = Result.err e) :
    upsert env s secret c tr = ⟨Ret.err e, s, secret, tr⟩ := by
  simp only [upsert, h]

theorem upsert_of_New_ok (env : Env) (s : CloudflareStore) (secret : Secret)
    (c : Certificate) (tr : List Event) (client : API)
    (h : env.New s.ApiKey s.ApiEmail = Result.ok client) :
    upsert env s secret c tr =
      match sslResult env client s c with
      | Result.err e => ⟨Ret.err e, s, secret, tr ++ [sslEvent env client s c]⟩
      | Result.ok sslCert =>
        recordCertId env s secret s.CertId sslCert (tr ++ [sslEvent env client s c]) := by
  by_cases hc : s.CertId = ""
  · simp only [upsert, h, sslResult, sslEvent, certRequest, hc, ne_eq, not_true_eq_false,
      if_false]
  · simp only [upsert, h, sslResult, sslEvent, certRequest, hc, ne_eq, not_false_eq_true,
      if_true]

theorem recordCertId_same (env : Env) (s : CloudflareStore) (secret : Secret)
    (orig : String) (sslCert : ZoneCustomSSL) (tr : List Event) (h : orig = sslCert.ID) :
    recordCertId env s secret orig sslCert tr =
      ⟨Ret.nil, { s with CertId := sslCert.ID }, secret, tr⟩ := by
  simp [recordCertId, h]

theorem recordCertId_diff (env : Env) (s : CloudflareStore) (secret : Secret)
    (orig : String) (sslCert : ZoneCustomSSL) (tr : List Event) (anns : GoMap String)
    (h : orig ≠ sslCert.ID)
    (ha : secret.Annotations.assign (certIdKey env.OperatorName) sslCert.ID = some anns) :
    recordCertId env s secret orig sslCert tr =
      ⟨(match env.SecretsUpdate secret.Namespace { secret with Annotations := anns } with
          | some e => Ret.err e
          | none => Ret.nil),
        { s with CertId := sslCert.ID }, { secret with Annotations := anns },
        tr ++ [Event.SecretsUpdate secret.Namespace { secret with Annotations := anns }
          (env.SecretsUpdate secret.Namespace { secret with Annotations := anns })]⟩ := by
  simp only [recordCertId, h, ne_eq, not_false_eq_true, if_true, ha]
  cases env.SecretsUpdate secret.Namespace { secret with Annotations := anns } <;> rfl

theorem recordCertId_panic (env : Env) (s : CloudflareStore) (secret : Secret)
    (orig : String) (sslCert : ZoneCustomSSL) (tr : List Event)
    (h : orig ≠ sslCert.ID)
    (ha : secret.Annotations.assign (certIdKey env.OperatorName) sslCert.ID = none) :
    recordCertId env s secret orig sslCert tr =
      ⟨Ret.panic, { s with CertId := sslCert.ID }, secret, tr⟩ := by
  simp only [recordCertId, h, ne_eq, not_false_eq_true, if_true, ha]

/-! ## What each step does to the fields of the store -/

theorem readAnnotations_ZoneId (op : String) (s : CloudflareStore) (c : Certificate) :
    (readAnnotations op s c).ZoneId =
      if c.Annotations.str (zoneIdKey op) ≠ "" then c.Annotations.str (zoneIdKey op)
      else s.ZoneId := by
  unfold readAnnotations
  by_cases h1 : c.Annotations.str (secretNameKey op) = "" <;>
  by_cases h2 : c.Annotations.str (zoneIdKey op) = "" <;>
  by_cases h3 : c.Annotations.str (certIdKey op) = "" <;>
  simp [h1, h2, h3]

theorem readAnnotations_CertId (op : String) (s : CloudflareStore) (c : Certificate) :
    (readAnnotations op s c).CertId =
      if c.Annotations.str (certIdKey op) ≠ "" then c.Annotations.str (certIdKey op)
      else s.CertId := by
  unfold readAnnotations
  by_cases h1 : c.Annotations.str (secretNameKey op) = "" <;>
  by_cases h2 : c.Annotations.str (zoneIdKey op) = "" <;>
  by_cases h3 : c.Annotations.str (certIdKey op) = "" <;>
  simp [h1, h2, h3]

theorem readAnnotations_SecretName (op : String) (s : CloudflareStore) (c : Certificate) :
    (readAnnotations op s c).SecretName =
      if c.Annotations.str (secretNameKey op) ≠ "" then c.Annotations.str (secretNameKey op)
      else s.SecretName := by
  unfold readAnnotations
  by_cases h1 : c.Annotations.str (secretNameKey op) = "" <;>
  by_cases h2 : c.Annotations.str (zoneIdKey op) = "" <;>
  by_cases h3 : c.Annotations.str (certIdKey op) = "" <;>
  simp [h1, h2, h3]

theorem readAnnotations_SecretNamespace (op : String) (s : CloudflareStore) (c : Certificate) :
    (readAnnotations op s c).SecretNamespace = s.SecretNamespace := by
  unfold readAnnotations
  by_cases h1 : c.Annotations.str (secretNameKey op) = "" <;>
  by_cases h2 : c.Annotations.str (zoneIdKey op) = "" <;>
  by_cases h3 : c.Annotations.str (certIdKey op) = "" <;>
  simp [h1, h2, h3]

theorem splitSecretName_keeps (s : CloudflareStore) :
    (splitSecretName s).1.ZoneId = s.ZoneId ∧ (splitSecretName s).1.CertId = s.CertId ∧
      (splitSecretName s).1.ApiKey = s.ApiKey ∧ (splitSecretName s).1.ApiEmail = s.ApiEmail := by
  unfold splitSecretName
  split
  · rename_i h
    obtain ⟨a, b, rest, hab⟩ := strings.Split_two s.SecretName '/' h
    simp [hab]
  · simp

theorem splitSecretName_of_not_Contains (s : CloudflareStore)
    (h : strings.Contains s.SecretName '/' = false) : splitSecretName s = (s, Ret.nil) := by
  simp [splitSecretName, h]

theorem splitSecretName_of_Split (s : CloudflareStore) (a b : String) (rest : List String)
    (h : strings.Contains s.SecretName '/' = true)
    (hab : strings.Split s.SecretName '/' = a :: b :: rest) :
    splitSecretName s = ({ s with SecretNamespace := a, SecretName := b }, Ret.nil) := by
  simp [splitSecretName, h, hab]

theorem defaultNamespace_keeps (s : CloudflareStore) (secret : Secret) :
    (defaultNamespace s secret).SecretName = s.SecretName ∧
      (defaultNamespace s secret).ZoneId = s.ZoneId ∧
      (defaultNamespace s secret).CertId = s.CertId ∧
      (defaultNamespace s secret).ApiKey = s.ApiKey ∧
      (defaultNamespace s secret).ApiEmail = s.ApiEmail := by
  unfold defaultNamespace
  split <;> simp

theorem not_Contains_empty : strings.Contains "" '/' = false := by decide

theorem GetApiKey_keeps (env : Env) (s : CloudflareStore) :
    (GetApiKey env s).1.SecretName = s.SecretName ∧
      (GetApiKey env s).1.SecretNamespace = s.SecretNamespace ∧
      (GetApiKey env s).1.ZoneId = s.ZoneId ∧ (GetApiKey env s).1.CertId = s.CertId := by
  cases h : env.SecretsGet s.SecretNamespace s.SecretName with
  | err e => rw [GetApiKey_of_err env s e h]; simp
  | ok sc =>
    rw [GetApiKey_of_ok env s sc h]
    split
    · simp
    · split <;> simp

theorem ParseCertificate_ZoneId (op : String) (s : CloudflareStore) (c : Certificate) :
    (ParseCertificate op s c).1.ZoneId =
      if c.Annotations.str (zoneIdKey op) ≠ "" then c.Annotations.str (zoneIdKey op)
      else s.ZoneId := by
  unfold ParseCertificate
  rw [(splitSecretName_keeps _).1, readAnnotations_ZoneId]

theorem ParseCertificate_CertId (op : String) (s : CloudflareStore) (c : Certificate) :
    (ParseCertificate op s c).1.CertId =
      if c.Annotations.str (certIdKey op) ≠ "" then c.Annotations.str (certIdKey op)
      else s.CertId := by
  unfold ParseCertificate
  rw [(splitSecretName_keeps _).2.1, readAnnotations_CertId]

/-! ## The shape of the trace -/

theorem sslEvent_kind (env : Env) (client : API) (s : CloudflareStore) (c : Certificate) :
    (sslEvent env client s c).isSSL = true ∧ (sslEvent env client s c).isSecretsGet = false ∧
      (sslEvent env client s c).isSecretsUpdate = false := by
  unfold sslEvent
  split <;> exact ⟨rfl, rfl, rfl⟩

theorem sslEvent_sslId (env : Env) (client : API) (s : CloudflareStore) (c : Certificate) :
    (sslEvent env client s c).sslId =
      match sslResult env client s c with
      | Result.ok sslCert => some sslCert.ID
      | Result.err _ => none := by
  unfold sslEvent sslResult
  split
  · cases env.UpdateSSL client s.ZoneId s.CertId (certRequest c) <;> rfl
  · cases env.CreateSSL client s.ZoneId (certRequest c) <;> rfl

theorem recordCertId_trace (env : Env) (s : CloudflareStore) (secret : Secret)
    (orig : String) (sslCert : ZoneCustomSSL) (tr : List Event) :
    ∃ rest, (recordCertId env s secret orig sslCert tr).trace = tr ++ rest ∧
      ∀ ev ∈ rest, ev.isSecretsUpdate = true ∧ ev.isSSL = false ∧ ev.isSecretsGet = false ∧
        ev.sslId = none := by
  by_cases h : orig = sslCert.ID
  · rw [recordCertId_same env s secret orig sslCert tr h]
    exact ⟨[], by simp, by simp⟩
  · cases ha : secret.Annotations.assign (certIdKey env.OperatorName) sslCert.ID with
    | none =>
      rw [recordCertId_panic env s secret orig sslCert tr h ha]
      exact ⟨[], by simp, by simp⟩
    | some anns =>
      rw [recordCertId_diff env s secret orig sslCert tr anns h ha]
      refine ⟨[_], rfl, ?_⟩
      intro ev hev
      rw [List.mem_singleton] at hev
      subst hev
      exact ⟨rfl, rfl, rfl, rfl⟩

theorem upsert_trace (env : Env) (s : CloudflareStore) (secret : Secret) (c : Certificate)
    (tr : List Event) :
    ∃ rest, (upsert env s secret c tr).trace = tr ++ rest ∧
      ∀ ev ∈ rest, ev.isSecretsGet = false := by
  cases hN : env.New s.ApiKey s.ApiEmail with
  | err e =>
    rw [upsert_of_New_err env s secret c tr e hN]
    exact ⟨[], by simp, by simp⟩
  | ok client =>
    rw [upsert_of_New_ok env s secret c tr client hN]
    cases hr : sslResult env client s c with
    | err e =>
      refine ⟨[sslEvent env client s c], rfl, ?_⟩
      intro ev hev
      rw [List.mem_singleton] at hev
      subst hev
      exact (sslEvent_kind env client s c).2.1
    | ok sslCert =>
      obtain ⟨rest, h1, h2⟩ := recordCertId_trace env s secret s.CertId sslCert
        (tr ++ [sslEvent env client s c])
      refine ⟨sslEvent env client s c :: rest, ?_, ?_⟩
      · simp only [h1, List.append_assoc, List.singleton_append]
      · intro ev hev
        rcases List.mem_cons.mp hev with h3 | h3
        · subst h3
          exact (sslEvent_kind env client s c).2.1
        · exact (h2 ev h3).2.2.1

theorem Update_trace_of_name_ne (env : Env) (s : CloudflareStore) (secret : Secret)
    (h : (resolve env s secret).SecretName ≠ "") :
    ∃ rest, (Update env s secret).trace = getEvent env (resolve env s secret) :: rest ∧
      ∀ ev ∈ rest, ev.isSecretsGet = false := by
  cases hg : (GetApiKey env (resolve env s secret)).2.1 with
  | err e =>
    rw [Update_of_GetApiKey_err env s secret e h hg]
    exact ⟨[], rfl, by simp⟩
  | panic => exact absurd hg (GetApiKey_ret_ne_panic _ _)
  | nil =>
    rw [Update_of_GetApiKey_nil env s secret h hg]
    obtain ⟨rest, h1, h2⟩ := upsert_trace env (GetApiKey env (resolve env s secret)).1 secret
      (env.ParseSecret secret) [getEvent env (resolve env s secret)]
    exact ⟨rest, by simpa using h1, h2⟩

theorem GetApiKey_fails (env : Env) (s : CloudflareStore)
    (h : (∃ e, env.SecretsGet s.SecretNamespace s.SecretName = Result.err e) ∨
      ∃ sc, env.SecretsGet s.SecretNamespace s.SecretName = Result.ok sc ∧
        (sc.Data.lookup "api_key" = none ∨ sc.Data.lookup "email" = none)) :
    ∃ e, (GetApiKey env s).2.1 = Ret.err e := by
  rcases h with ⟨e, he⟩ | ⟨sc, hsc, hk⟩
  · exact ⟨e, by rw [GetApiKey_of_err env s e he]⟩
  · rw [GetApiKey_of_ok env s sc hsc]
    by_cases h1 : sc.Data.bytes "api_key" = none
    · rw [if_pos h1]
      exact ⟨_, rfl⟩
    · have h2 : sc.Data.bytes "email" = none := by
        rcases hk with hk | hk
        · exact absurd (GoMap.bytes_eq_nil_of_absent _ _ hk) h1
        · exact GoMap.bytes_eq_nil_of_absent _ _ hk
      rw [if_neg h1, if_pos h2]
      exact ⟨_, rfl⟩

/-! ## The credential reference -/

theorem splitSecretName_of_pair (s : CloudflareStore) (a b : String)
    (h : s.SecretName = a ++ "/" ++ b) (ha : '/' ∉ a.data) (hb : '/' ∉ b.data) :
    splitSecretName s = ({ s with SecretNamespace := a, SecretName := b }, Ret.nil) := by
  have hs : strings.Split s.SecretName '/' = [a, b] := by
    rw [h]
    exact strings.Split_of_not_mem_append a b '/' ha hb
  have hc : strings.Contains s.SecretName '/' = true := by
    rw [strings.Contains_iff, h]
    simp [String.data_append]
  exact splitSecretName_of_Split s a b [] hc hs

theorem readAnnotations_empty_SecretName (op : String) (c : Certificate) :
    (readAnnotations op {} c).SecretName = c.Annotations.str (secretNameKey op) := by
  rw [readAnnotations_SecretName]
  split
  · rfl
  · rename_i h
    exact (not_not.mp h).symm

theorem resolve_SecretName (env : Env) (s : CloudflareStore) (secret : Secret) :
    (resolve env s secret).SecretName =
      (splitSecretName (readAnnotations env.OperatorName s (env.ParseSecret secret))).1.SecretName := by
  unfold resolve ParseCertificate
  exact (defaultNamespace_keeps _ _).1

theorem resolve_empty_name_of_empty (env : Env) (secret : Secret)
    (h : (env.ParseSecret secret).Annotations.str (secretNameKey env.OperatorName) = "") :
    (resolve env {} secret).SecretName = "" := by
  have h1 := readAnnotations_empty_SecretName env.OperatorName (env.ParseSecret secret)
  rw [h] at h1
  rw [resolve_SecretName, splitSecretName_of_not_Contains _ (by rw [h1]; exact not_Contains_empty)]
  exact h1

theorem resolve_empty_of_pair (env : Env) (secret : Secret) (a b : String)
    (h : (env.ParseSecret secret).Annotations.str (secretNameKey env.OperatorName) = a ++ "/" ++ b)
    (ha : '/' ∉ a.data) (hb : '/' ∉ b.data) :
    (resolve env {} secret).SecretName = b ∧
      (resolve env {} secret).SecretNamespace = if a = "" then secret.Namespace else a := by
  have h1 := readAnnotations_empty_SecretName env.OperatorName (env.ParseSecret secret)
  rw [h] at h1
  have h2 := splitSecretName_of_pair _ a b h1 ha hb
  unfold resolve ParseCertificate
  rw [h2]
  unfold defaultNamespace
  by_cases h3 : a = ""
  · simp [h3]
  · simp [h3]

theorem resolve_empty_of_bare (env : Env) (secret : Secret) (n : String)
    (h : (env.ParseSecret secret).Annotations.str (secretNameKey env.OperatorName) = n)
    (hn : '/' ∉ n.data) :
    (resolve env {} secret).SecretName = n ∧
      (resolve env {} secret).SecretNamespace = secret.Namespace := by
  have h1 := readAnnotations_empty_SecretName env.OperatorName (env.ParseSecret secret)
  rw [h] at h1
  have h0 := readAnnotations_SecretNamespace env.OperatorName {} (env.ParseSecret secret)
  have hc : strings.Contains
      (readAnnotations env.OperatorName {} (env.ParseSecret secret)).SecretName '/' = false := by
    rw [h1]
    cases hb : strings.Contains n '/' with
    | false => rfl
    | true => exact absurd ((strings.Contains_iff n '/').mp hb) hn
  have h2 := splitSecretName_of_not_Contains _ hc
  unfold resolve ParseCertificate
  rw [h2]
  unfold defaultNamespace
  simp only [h0]
  exact ⟨h1, by simp [h0]⟩

/-! ## The remote call -/

theorem resolve_empty_ids (env : Env) (secret : Secret) :
    (resolve env {} secret).ZoneId =
        (env.ParseSecret secret).Annotations.str (zoneIdKey env.OperatorName) ∧
      (resolve env {} secret).CertId =
        (env.ParseSecret secret).Annotations.str (certIdKey env.OperatorName) := by
  unfold resolve
  rw [(defaultNamespace_keeps _ _).2.1, (defaultNamespace_keeps _ _).2.2.1,
    ParseCertificate_ZoneId, ParseCertificate_CertId]
  constructor
  · split
    · rfl
    · rename_i h
      exact (not_not.mp h).symm
  · split
    · rfl
    · rename_i h
      exact (not_not.mp h).symm

theorem entries_ne_none_of_name (env : Env) (secret : Secret)
    (h : (resolve env {} secret).SecretName ≠ "") :
    (env.ParseSecret secret).Annotations.entries ≠ none := by
  intro hnil
  exact h (resolve_empty_name_of_empty env secret (GoMap.str_eq_empty_of_nil _ _ hnil))

theorem Update_trace_get (env : Env) (s : CloudflareStore) (secret : Secret)
    (h : (resolve env s secret).SecretName ≠ "") :
    (Update env s secret).trace.head? = some (getEvent env (resolve env s secret)) ∧
      (Update env s secret).trace.filter Event.isSecretsGet =
        [getEvent env (resolve env s secret)] := by
  obtain ⟨rest, h1, h2⟩ := Update_trace_of_name_ne env s secret h
  rw [h1]
  refine ⟨rfl, ?_⟩
  have h3 : rest.filter Event.isSecretsGet = [] := by
    rw [List.filter_eq_nil_iff]
    intro ev hev
    simp [h2 ev hev]
  rw [List.filter_cons_of_pos (by rfl), h3]

theorem Update_of_sslId (env : Env) (secret : Secret) (X : String)
    (hX : ∃ ev ∈ (Update env {} secret).trace, ev.sslId = some X) :
    (resolve env {} secret).SecretName ≠ "" ∧
    ∃ sslCert tr, sslCert.ID = X ∧ (∀ ev ∈ tr, ev.isSecretsUpdate = false) ∧
      Update env {} secret =
        recordCertId env (GetApiKey env (resolve env {} secret)).1 secret
          (GetApiKey env (resolve env {} secret)).1.CertId sslCert tr := by
  by_cases hn : (resolve env {} secret).SecretName = ""
  · rw [Update_of_name_empty env {} secret hn] at hX
    simp at hX
  refine ⟨hn, ?_⟩
  cases hg : (GetApiKey env (resolve env {} secret)).2.1 with
  | panic => exact absurd hg (GetApiKey_ret_ne_panic _ _)
  | err e =>
    rw [Update_of_GetApiKey_err env {} secret e hn hg] at hX
    simp [getEvent, Event.sslId] at hX
  | nil =>
    rw [Update_of_GetApiKey_nil env {} secret hn hg] at hX ⊢
    cases hN : env.New (GetApiKey env (resolve env {} secret)).1.ApiKey
        (GetApiKey env (resolve env {} secret)).1.ApiEmail with
    | err e =>
      rw [upsert_of_New_err _ _ _ _ _ e hN] at hX
      simp [getEvent, Event.sslId] at hX
    | ok client =>
      rw [upsert_of_New_ok _ _ _ _ _ client hN] at hX ⊢
      have hid := sslEvent_sslId env client (GetApiKey env (resolve env {} secret)).1
        (env.ParseSecret secret)
      cases hr : sslResult env client (GetApiKey env (resolve env {} secret)).1
          (env.ParseSecret secret) with
      | err e =>
        rw [hr] at hX hid
        simp only at hX hid
        obtain ⟨ev, hev, hevX⟩ := hX
        simp only [List.mem_append, List.mem_singleton] at hev
        rcases hev with hev | hev
        · subst hev
          simp [getEvent, Event.sslId] at hevX
        · subst hev
          rw [hid] at hevX
          simp at hevX
      | ok sslCert =>
        rw [hr] at hX hid
        simp only at hX hid
        refine ⟨sslCert, _, ?_, ?_, rfl⟩
        · obtain ⟨rest, h1, h2⟩ := recordCertId_trace env
            (GetApiKey env (resolve env {} secret)).1 secret
            (GetApiKey env (resolve env {} secret)).1.CertId sslCert
            ([getEvent env (resolve env {} secret)] ++
              [sslEvent env client (GetApiKey env (resolve env {} secret)).1
                (env.ParseSecret secret)])
          rw [h1] at hX
          obtain ⟨ev, hev, hevX⟩ := hX
          simp only [List.mem_append, List.mem_singleton] at hev
          rcases hev with (hev | hev) | hev
          · subst hev
            simp [getEvent, Event.sslId] at hevX
          · subst hev
            rw [hid] at hevX
            simpa using hevX
          · rw [(h2 ev hev).2.2.2] at hevX
            simp at hevX
        · intro ev hev
          simp only [List.mem_append, List.mem_singleton] at hev
          rcases hev with hev | hev
          · subst hev
            rfl
          · subst hev
            exact (sslEvent_kind _ _ _ _).2.2

/-! ## Properties of `ParseCertificate` -/

theorem ParseCertificate_congr (op : String) (s : CloudflareStore) (c1 c2 : Certificate)
    (h : c1.Annotations = c2.Annotations) :
    ParseCertificate op s c1 = ParseCertificate op s c2 := by
  simp only [ParseCertificate, readAnnotations, h]

/-- C10. `ParseCertificate` never fails: for every operator name, prior store and
certificate (any annotation map, the nil map included) it returns nil, neither
an error nor a panic. Whenever a name contains the separator, splitting it
gives at least two segments, so the reads of segment 0 and of segment 1 are in
range; so it is for a name with several separators and for the bare separator. -/
theorem ParseCertificate_never_fails (op : String) (s : CloudflareStore) (c : Certificate) :
    (ParseCertificate op s c).2 = Ret.nil ∧
    (∀ name : String, strings.Contains name '/' = true →
      2 ≤ (strings.Split name '/').length ∧
      ((strings.Split name '/')[0]?).isSome = true ∧
      ((strings.Split name '/')[1]?).isSome = true) ∧
    strings.Split "a/b/c" '/' = ["a", "b", "c"] ∧
    strings.Split "/" '/' = ["", ""] := by
  refine ⟨ParseCertificate_ret op s c, ?_, by decide, by decide⟩
  intro name h
  obtain ⟨a, b, rest, hab⟩ := strings.Split_two name '/' h
  simp [hab]

/-- C5, the claim as stated fails. A store that already holds a zone id and a
certificate id keeps both when the certificate has no annotations at all: the
zone-id and cert-id keys are absent, yet `ZoneId` and `CertId` are not empty
afterwards, and the outcome differs from that of a fresh store on the same
certificate. -/
theorem ParseCertificate_keeps_prior_ids :
    (⟨some []⟩ : GoMap String).lookup (zoneIdKey exOperatorName) = none ∧
    (⟨some []⟩ : GoMap String).lookup (certIdKey exOperatorName) = none ∧
    (ParseCertificate exOperatorName { ZoneId := "old-zone", CertId := "old-id" }
      ⟨⟨some []⟩, none, none⟩).1.ZoneId = "old-zone" ∧
    (ParseCertificate exOperatorName { ZoneId := "old-zone", CertId := "old-id" }
      ⟨⟨some []⟩, none, none⟩).1.CertId = "old-id" ∧
    ParseCertificate exOperatorName { ZoneId := "old-zone", CertId := "old-id" }
      ⟨⟨some []⟩, none, none⟩ ≠
    ParseCertificate exOperatorName {} ⟨⟨some []⟩, none, none⟩ := by
  decide

/-- C5, amended. After `ParseCertificate`, `ZoneId` is the value of the zone-id
annotation when that value is not empty and otherwise what the store held
before; likewise `CertId` with the cert-id annotation. For a store whose
`ZoneId` and `CertId` are empty before the call, both equal the value read
from the annotation, which is empty when the annotation is absent. The outcome
is the same for two certificates with the same annotations. -/
theorem ParseCertificate_ids (op : String) (s : CloudflareStore) (c : Certificate) :
    (ParseCertificate op s c).1.ZoneId =
      (if c.Annotations.str (zoneIdKey op) ≠ "" then c.Annotations.str (zoneIdKey op)
       else s.ZoneId) ∧
    (ParseCertificate op s c).1.CertId =
      (if c.Annotations.str (certIdKey op) ≠ "" then c.Annotations.str (certIdKey op)
       else s.CertId) ∧
    (s.ZoneId = "" → (ParseCertificate op s c).1.ZoneId = c.Annotations.str (zoneIdKey op)) ∧
    (s.CertId = "" → (ParseCertificate op s c).1.CertId = c.Annotations.str (certIdKey op)) ∧
    (c.Annotations.lookup (zoneIdKey op) = none → c.Annotations.str (zoneIdKey op) = "") ∧
    (c.Annotations.lookup (certIdKey op) = none → c.Annotations.str (certIdKey op) = "") ∧
    (∀ c2 : Certificate, c2.Annotations = c.Annotations →
      ParseCertificate op s c2 = ParseCertificate op s c) := by
  refine ⟨ParseCertificate_ZoneId op s c, ParseCertificate_CertId op s c, ?_, ?_,
    GoMap.str_eq_empty_of_absent _ _, GoMap.str_eq_empty_of_absent _ _,
    fun c2 h => ParseCertificate_congr op s c2 c h⟩
  · intro h
    rw [ParseCertificate_ZoneId, h]
    split
    · rfl
    · rename_i h1
      exact (not_not.mp h1).symm
  · intro h
    rw [ParseCertificate_CertId, h]
    split
    · rfl
    · rename_i h1
      exact (not_not.mp h1).symm

/-- C5, amended, at a store that holds a zone id and a certificate with a
zone-id annotation and no cert-id annotation. -/
theorem ParseCertificate_ids_witness :
    (ParseCertificate exOperatorName { ZoneId := "old-zone" }
      ⟨⟨some [(zoneIdKey exOperatorName, "zone123")]⟩, none, none⟩).1.ZoneId = "zone123" ∧
    (ParseCertificate exOperatorName { ZoneId := "old-zone" }
      ⟨⟨some [(zoneIdKey exOperatorName, "zone123")]⟩, none, none⟩).1.CertId = "" :=
  ⟨(ParseCertificate_ids exOperatorName { ZoneId := "old-zone" }
      ⟨⟨some [(zoneIdKey exOperatorName, "zone123")]⟩, none, none⟩).1.trans (by decide),
   ((ParseCertificate_ids exOperatorName { ZoneId := "old-zone" }
      ⟨⟨some [(zoneIdKey exOperatorName, "zone123")]⟩, none, none⟩).2.2.2.1 rfl).trans
        (by decide)⟩

/-! ## Properties of `GetApiKey` -/

/-- C6, the claim as stated fails. The fetched credential secret has `api_key`
present with a value of length zero (a non-nil empty slice), and `GetApiKey`
returns nil, leaving an empty `ApiKey` in the store. -/
theorem GetApiKey_accepts_empty_api_key :
    exEmptyKeyCreds.Data.lookup "api_key" = some (some "") ∧
    (GetApiKey exEmptyKeyEnv { SecretName := "cf-creds", SecretNamespace := "default" }).2.1
      = Ret.nil ∧
    (GetApiKey exEmptyKeyEnv { SecretName := "cf-creds", SecretNamespace := "default" }).1.ApiKey
      = "" := by
  decide

/-- C6, amended. When the credential secret is fetched, `GetApiKey` returns the
field-missing error for `api_key` when the read of `api_key` is nil, the one
for `email` when the read of `api_key` is not nil and that of `email` is, and
nil exactly when both reads are not nil, the two store fields then holding the
two values. A read is nil when the key is absent; it is not nil when the key is
bound to a non-nil slice, of length zero or not. -/
theorem GetApiKey_succeeds_iff (env : Env) (s : CloudflareStore) (sc : Secret)
    (h : env.SecretsGet s.SecretNamespace s.SecretName = Result.ok sc) :
    ((GetApiKey env s).2.1 = Ret.nil ↔
      sc.Data.bytes "api_key" ≠ none ∧ sc.Data.bytes "email" ≠ none) ∧
    (sc.Data.bytes "api_key" = none →
      (GetApiKey env s).2.1 = Ret.err (GoError.Errorf
        ("api_key not found in secret " ++ s.SecretNamespace ++ "/" ++ s.SecretName))) ∧
    (sc.Data.bytes "api_key" ≠ none → sc.Data.bytes "email" = none →
      (GetApiKey env s).2.1 = Ret.err (GoError.Errorf
        ("email not found in secret " ++ s.SecretNamespace ++ "/" ++ s.SecretName))) ∧
    (sc.Data.bytes "api_key" ≠ none → sc.Data.bytes "email" ≠ none →
      (GetApiKey env s).1 = { s with ApiKey := string (sc.Data.bytes "api_key"),
                                     ApiEmail := string (sc.Data.bytes "email") }) ∧
    (∀ k, sc.Data.lookup k = none → sc.Data.bytes k = none) ∧
    (∀ k b, sc.Data.lookup k = some (some b) → sc.Data.bytes k ≠ none) := by
  rw [GetApiKey_of_ok env s sc h]
  refine ⟨?_, ?_, ?_, ?_, GoMap.bytes_eq_nil_of_absent _, ?_⟩
  · by_cases h1 : sc.Data.bytes "api_key" = none
    · simp [h1]
    · by_cases h2 : sc.Data.bytes "email" = none
      · simp [h1, h2]
      · simp [h1, h2]
  · intro h1
    simp [h1]
  · intro h1 h2
    simp [h1, h2]
  · intro h1 h2
    simp [h1, h2]
  · intro k b hk
    simp [GoMap.bytes, GoMap.index, hk]

/-- C6, amended, at the credential secret with an empty `api_key`. -/
theorem GetApiKey_succeeds_iff_witness :
    exEmptyKeyEnv.SecretsGet "default" "cf-creds" = Result.ok exEmptyKeyCreds ∧
    ((GetApiKey exEmptyKeyEnv { SecretName := "cf-creds", SecretNamespace := "default" }).2.1
        = Ret.nil ↔
      exEmptyKeyCreds.Data.bytes "api_key" ≠ none ∧
        exEmptyKeyCreds.Data.bytes "email" ≠ none) :=
  ⟨rfl, (GetApiKey_succeeds_iff exEmptyKeyEnv
    { SecretName := "cf-creds", SecretNamespace := "default" } exEmptyKeyCreds rfl).1⟩

/-! ## Properties of `Update`: the failure paths -/

/-- C7. For every store `s0`: if the credential secret `s0` refers to cannot be
fetched, or its data lacks the `api_key` key or the `email` key, `GetApiKey`
returns an error and leaves the store as it was, `ApiKey` and `ApiEmail`
included. For every store and secret: if that holds of the store `Update` has
resolved, `Update` returns an error, makes no Cloudflare call and no persistence
call and leaves the secret as it was; when the credential name is not empty, so
that `GetApiKey` is called, the error is the one `GetApiKey` returned and the
fetch is the only call. -/
theorem credential_failure_aborts (env : Env) :
    (∀ s0 : CloudflareStore,
      ((∃ e, env.SecretsGet s0.SecretNamespace s0.SecretName = Result.err e) ∨
        ∃ sc, env.SecretsGet s0.SecretNamespace s0.SecretName = Result.ok sc ∧
          (sc.Data.lookup "api_key" = none ∨ sc.Data.lookup "email" = none)) →
      ∃ e, (GetApiKey env s0).2.1 = Ret.err e ∧ (GetApiKey env s0).1 = s0 ∧
        (GetApiKey env s0).1.ApiKey = s0.ApiKey ∧
        (GetApiKey env s0).1.ApiEmail = s0.ApiEmail) ∧
    (∀ (s : CloudflareStore) (secret : Secret),
      ((∃ e, env.SecretsGet (resolve env s secret).SecretNamespace
          (resolve env s secret).SecretName = Result.err e) ∨
        ∃ sc, env.SecretsGet (resolve env s secret).SecretNamespace
            (resolve env s secret).SecretName = Result.ok sc ∧
          (sc.Data.lookup "api_key" = none ∨ sc.Data.lookup "email" = none)) →
      ∃ e, (GetApiKey env (resolve env s secret)).2.1 = Ret.err e ∧
        ((resolve env s secret).SecretName ≠ "" →
          Update env s secret =
            ⟨Ret.err e, resolve env s secret, secret, [getEvent env (resolve env s secret)]⟩) ∧
        (∃ e1, (Update env s secret).ret = Ret.err e1) ∧
        (Update env s secret).trace.filter Event.isSSL = [] ∧
        (Update env s secret).trace.filter Event.isSecretsUpdate = [] ∧
        (Update env s secret).secret = secret) := by
  constructor
  · intro s0 h
    obtain ⟨e, he⟩ := GetApiKey_fails env s0 h
    have hst := GetApiKey_err_store env s0 e he
    exact ⟨e, he, hst, by rw [hst], by rw [hst]⟩
  · intro s secret h
    obtain ⟨e, he⟩ := GetApiKey_fails env _ h
    refine ⟨e, he, fun hn => Update_of_GetApiKey_err env s secret e hn he, ?_⟩
    by_cases hn : (resolve env s secret).SecretName = ""
    · rw [Update_of_name_empty env s secret hn]
      exact ⟨⟨_, rfl⟩, rfl, rfl, rfl⟩
    · rw [Update_of_GetApiKey_err env s secret e hn he]
      exact ⟨⟨_, rfl⟩, rfl, rfl, rfl⟩

/-- C7 at the scenario secret in a cluster without the credential secret: the
fetch fails, and `Update` returns that error after the fetch alone. -/
theorem credential_failure_aborts_witness :
    (GetApiKey exNoCredsEnv { SecretName := "cf-creds", SecretNamespace := "default" }).1 =
      { SecretName := "cf-creds", SecretNamespace := "default" } ∧
    (Update exNoCredsEnv {} exSecret).ret = Ret.err (GoError.collaborator "secrets not found") ∧
    (Update exNoCredsEnv {} exSecret).trace =
      [Event.SecretsGet "default" "cf-creds"
        (Result.err (GoError.collaborator "secrets not found"))] ∧
    (Update exNoCredsEnv {} exSecret).secret = exSecret := by
  obtain ⟨_, -, h0, -⟩ := (credential_failure_aborts exNoCredsEnv).1
    { SecretName := "cf-creds", SecretNamespace := "default" } (Or.inl ⟨_, rfl⟩)
  obtain ⟨_, -, -, -, -, -, h2⟩ := (credential_failure_aborts exNoCredsEnv).2 {} exSecret
    (Or.inl ⟨_, rfl⟩)
  exact ⟨h0, by decide, by decide, h2⟩

/-- C9. From an empty store: whenever the credential secret name is empty after
`ParseCertificate`, and so whenever the certificate carries the annotations of
the secret and the secret-name annotation is absent, is empty, or is a
namespace followed by the separator and nothing else, `Update` returns the
name-not-found error with no call made at all (no fetch, no Cloudflare call, no
persistence call) and the secret as it was. -/
theorem Update_without_name (env : Env) (secret : Secret) (ns : String)
    (h : (ParseCertificate env.OperatorName {} (env.ParseSecret secret)).1.SecretName = "" ∨
      ((env.ParseSecret secret).Annotations = secret.Annotations ∧
        (secret.Annotations.lookup (secretNameKey env.OperatorName) = none ∨
         secret.Annotations.str (secretNameKey env.OperatorName) = "" ∨
         ('/' ∉ ns.data ∧
           secret.Annotations.str (secretNameKey env.OperatorName) = ns ++ "/")))) :
    Update env {} secret =
      ⟨Ret.err (GoError.Errorf "secret name not found in certificate annotations"),
        resolve env {} secret, secret, []⟩ := by
  apply Update_of_name_empty
  rcases h with h | ⟨hAnn, h | h | ⟨h1, h2⟩⟩
  · rw [resolve_SecretName]
    exact h
  · apply resolve_empty_name_of_empty
    rw [hAnn]
    exact GoMap.str_eq_empty_of_absent _ _ h
  · apply resolve_empty_name_of_empty
    rw [hAnn]
    exact h
  · have h3 : (env.ParseSecret secret).Annotations.str (secretNameKey env.OperatorName) =
        ns ++ "/" ++ "" := by
      rw [hAnn, h2, String.append_empty]
    exact (resolve_empty_of_pair env secret ns "" h3 h1 (by simp)).1

/-- C9 at a secret whose credential reference is `ops/`. -/
theorem Update_without_name_witness :
    exNoNameSecret.Annotations.str (secretNameKey exEnv.OperatorName) = "ops" ++ "/" ∧
    (Update exEnv {} exNoNameSecret).ret =
      Ret.err (GoError.Errorf "secret name not found in certificate annotations") ∧
    (Update exEnv {} exNoNameSecret).trace = [] ∧
    (Update exEnv {} exNoNameSecret).secret = exNoNameSecret :=
  have h := Update_without_name exEnv exNoNameSecret "ops"
    (Or.inr ⟨rfl, Or.inr (Or.inr ⟨by decide, by decide⟩)⟩)
  ⟨by decide, by rw [h], by rw [h], by rw [h]⟩

/-- C8, the claim as stated fails. The chain of the secret is the text
`this is not PEM`; `Update` returns nil, having fetched the credential secret,
sent the chain as it stands to `CreateSSL` and persisted the id it got back. -/
theorem Update_sends_malformed_chain :
    (exEnv.ParseSecret exBadChainSecret).FullChain = some "this is not PEM" ∧
    (Update exEnv {} exBadChainSecret).ret = Ret.nil ∧
    (Update exEnv {} exBadChainSecret).trace.filter Event.isSecretsGet =
      [Event.SecretsGet "default" "cf-creds" (Result.ok exCreds)] ∧
    (Update exEnv {} exBadChainSecret).trace.filter Event.isSSL =
      [Event.CreateSSL ⟨"k3y", "ops@example.com"⟩ "zone123" ⟨"this is not PEM", "KEY"⟩
        (Result.ok ⟨"abc"⟩)] ∧
    (Update exEnv {} exBadChainSecret).trace.length = 3 := by
  decide

/-- C8, amended. `Update` does not examine the chain. It makes no call at all
exactly when the credential secret name is empty after `ParseCertificate`, and
then returns the name-not-found error; otherwise its first call is the fetch of
the credential secret. The store it has resolved at that point is the same for
two parsers that give the secret the same annotations, whatever chain and key
they give it. -/
theorem Update_stops_before_fetch_iff (env : Env) (s : CloudflareStore) (secret : Secret) :
    ((Update env s secret).trace = [] ↔ (resolve env s secret).SecretName = "") ∧
    ((resolve env s secret).SecretName = "" →
      (Update env s secret).ret =
        Ret.err (GoError.Errorf "secret name not found in certificate annotations")) ∧
    ((resolve env s secret).SecretName ≠ "" →
      (Update env s secret).trace.head? = some (getEvent env (resolve env s secret))) ∧
    (∀ env2 : Env, env2.OperatorName = env.OperatorName →
      (env2.ParseSecret secret).Annotations = (env.ParseSecret secret).Annotations →
      resolve env2 s secret = resolve env s secret) := by
  refine ⟨⟨?_, ?_⟩, ?_, ?_, ?_⟩
  · intro h
    by_contra hn
    obtain ⟨rest, h1, -⟩ := Update_trace_of_name_ne env s secret hn
    rw [h1] at h
    simp at h
  · intro h
    rw [Update_of_name_empty env s secret h]
  · intro h
    rw [Update_of_name_empty env s secret h]
  · intro h
    obtain ⟨rest, h1, -⟩ := Update_trace_of_name_ne env s secret h
    rw [h1]
    rfl
  · intro env2 hop hann
    unfold resolve
    rw [hop, ParseCertificate_congr env.OperatorName s _ _ hann]

/-- C8, amended, at the secret whose chain is not PEM: the name is not empty and
the first call is the fetch. -/
theorem Update_stops_before_fetch_iff_witness :
    (resolve exEnv {} exBadChainSecret).SecretName ≠ "" ∧
    (Update exEnv {} exBadChainSecret).trace.head? =
      some (getEvent exEnv (resolve exEnv {} exBadChainSecret)) :=
  ⟨by decide, (Update_stops_before_fetch_iff exEnv {} exBadChainSecret).2.2.1 (by decide)⟩

/-! ## Properties of `Update`: the sync -/

/-- C1. From an empty store, when the certificate carries the annotations of
the secret, the credential name is not empty, `GetApiKey` returns nil and
`cloudflare.New` builds a client from the credentials: the Cloudflare
certificate calls of `Update` are exactly one call. It is `CreateSSL(zone, cert)`
when the cert-id annotation reads empty (as it does when absent), and
`UpdateSSL(zone, id, cert)` with `id` the value of that annotation otherwise;
`zone` is the value of the zone-id annotation and `cert` the request built from
the certificate. -/
theorem Update_one_remote_call (env : Env) (secret : Secret) (client : API)
    (hAnn : (env.ParseSecret secret).Annotations = secret.Annotations)
    (hName : (resolve env {} secret).SecretName ≠ "")
    (hKey : (GetApiKey env (resolve env {} secret)).2.1 = Ret.nil)
    (hNew : env.New (GetApiKey env (resolve env {} secret)).1.ApiKey
      (GetApiKey env (resolve env {} secret)).1.ApiEmail = Result.ok client) :
    (Update env {} secret).trace.filter Event.isSSL =
      [if secret.Annotations.str (certIdKey env.OperatorName) = "" then
        Event.CreateSSL client (secret.Annotations.str (zoneIdKey env.OperatorName))
          (certRequest (env.ParseSecret secret))
          (env.CreateSSL client (secret.Annotations.str (zoneIdKey env.OperatorName))
            (certRequest (env.ParseSecret secret)))
       else
        Event.UpdateSSL client (secret.Annotations.str (zoneIdKey env.OperatorName))
          (secret.Annotations.str (certIdKey env.OperatorName))
          (certRequest (env.ParseSecret secret))
          (env.UpdateSSL client (secret.Annotations.str (zoneIdKey env.OperatorName))
            (secret.Annotations.str (certIdKey env.OperatorName))
            (certRequest (env.ParseSecret secret)))] ∧
    (secret.Annotations.lookup (certIdKey env.OperatorName) = none →
      secret.Annotations.str (certIdKey env.OperatorName) = "") := by
  refine ⟨?_, GoMap.str_eq_empty_of_absent _ _⟩
  have hz : (GetApiKey env (resolve env {} secret)).1.ZoneId =
      secret.Annotations.str (zoneIdKey env.OperatorName) := by
    rw [(GetApiKey_keeps env _).2.2.1, (resolve_empty_ids env secret).1, hAnn]
  have hc : (GetApiKey env (resolve env {} secret)).1.CertId =
      secret.Annotations.str (certIdKey env.OperatorName) := by
    rw [(GetApiKey_keeps env _).2.2.2, (resolve_empty_ids env secret).2, hAnn]
  have hev : sslEvent env client (GetApiKey env (resolve env {} secret)).1
      (env.ParseSecret secret) =
      if secret.Annotations.str (certIdKey env.OperatorName) = "" then
        Event.CreateSSL client (secret.Annotations.str (zoneIdKey env.OperatorName))
          (certRequest (env.ParseSecret secret))
          (env.CreateSSL client (secret.Annotations.str (zoneIdKey env.OperatorName))
            (certRequest (env.ParseSecret secret)))
       else
        Event.UpdateSSL client (secret.Annotations.str (zoneIdKey env.OperatorName))
          (secret.Annotations.str (certIdKey env.OperatorName))
          (certRequest (env.ParseSecret secret))
          (env.UpdateSSL client (secret.Annotations.str (zoneIdKey env.OperatorName))
            (secret.Annotations.str (certIdKey env.OperatorName))
            (certRequest (env.ParseSecret secret))) := by
    unfold sslEvent
    rw [hz, hc]
    by_cases h0 : secret.Annotations.str (certIdKey env.OperatorName) = ""
    · simp [h0]
    · simp [h0]
  rw [← hev, Update_of_GetApiKey_nil env {} secret hName hKey,
    upsert_of_New_ok _ _ _ _ _ client hNew]
  have hk := sslEvent_kind env client (GetApiKey env (resolve env {} secret)).1
    (env.ParseSecret secret)
  have hget : (getEvent env (resolve env {} secret)).isSSL = false := rfl
  cases hr : sslResult env client (GetApiKey env (resolve env {} secret)).1
      (env.ParseSecret secret) with
  | err e =>
    simp [List.filter_cons, hget, hk.1]
  | ok sslCert =>
    obtain ⟨rest, h1, h2⟩ := recordCertId_trace env
      (GetApiKey env (resolve env {} secret)).1 secret
      (GetApiKey env (resolve env {} secret)).1.CertId sslCert
      ([getEvent env (resolve env {} secret)] ++
        [sslEvent env client (GetApiKey env (resolve env {} secret)).1
          (env.ParseSecret secret)])
    have h3 : rest.filter Event.isSSL = [] := by
      rw [List.filter_eq_nil_iff]
      intro ev hev1
      simp [(h2 ev hev1).2.1]
    simp only [h1, List.filter_append, h3, List.append_nil]
    simp [List.filter_cons, hget, hk.1]

/-- C1 at the scenario: the first sync of `default/example-tls` makes the one
call `CreateSSL` with zone `zone123`. -/
theorem Update_one_remote_call_witness :
    (Update exEnv {} exSecret).trace.filter Event.isSSL =
      [Event.CreateSSL ⟨"k3y", "ops@example.com"⟩ "zone123" ⟨"CHAIN", "KEY"⟩
        (Result.ok ⟨"abc"⟩)] :=
  (Update_one_remote_call exEnv exSecret ⟨"k3y", "ops@example.com"⟩ rfl (by decide)
    (by decide) (by decide)).1.trans (by decide)

/-- C2. From an empty store, when the certificate carries the annotations of
the secret and the Cloudflare certificate call of `Update` answered id `X`:
afterwards the secret reads `X` at the cert-id key, the store holds `X` in
`CertId`, and every other annotation key, the secret-name and zone-id keys among
them, is bound as before. This holds whenever the remote call answered, so in
particular when `Update` returns nil. -/
theorem Update_records_id (env : Env) (secret : Secret) (X : String)
    (hAnn : (env.ParseSecret secret).Annotations = secret.Annotations)
    (hX : ∃ ev ∈ (Update env {} secret).trace, ev.sslId = some X) :
    (Update env {} secret).secret.Annotations.str (certIdKey env.OperatorName) = X ∧
    (Update env {} secret).store.CertId = X ∧
    (∀ k, k ≠ certIdKey env.OperatorName →
      (Update env {} secret).secret.Annotations.lookup k = secret.Annotations.lookup k ∧
      (Update env {} secret).secret.Annotations.str k = secret.Annotations.str k) ∧
    (Update env {} secret).secret.Annotations.str (secretNameKey env.OperatorName) =
      secret.Annotations.str (secretNameKey env.OperatorName) ∧
    (Update env {} secret).secret.Annotations.str (zoneIdKey env.OperatorName) =
      secret.Annotations.str (zoneIdKey env.OperatorName) := by
  obtain ⟨hn, sslCert, tr, hid, -, hU⟩ := Update_of_sslId env secret X hX
  have hc : (GetApiKey env (resolve env {} secret)).1.CertId =
      secret.Annotations.str (certIdKey env.OperatorName) := by
    rw [(GetApiKey_keeps env _).2.2.2, (resolve_empty_ids env secret).2, hAnn]
  have hent : secret.Annotations.entries ≠ none := by
    rw [← hAnn]
    exact entries_ne_none_of_name env secret hn
  have hmain : (Update env {} secret).secret.Annotations.str (certIdKey env.OperatorName) = X ∧
      (Update env {} secret).store.CertId = X ∧
      (∀ k, k ≠ certIdKey env.OperatorName →
        (Update env {} secret).secret.Annotations.lookup k = secret.Annotations.lookup k) := by
    rw [hU, hc]
    by_cases hsame : secret.Annotations.str (certIdKey env.OperatorName) = sslCert.ID
    · rw [recordCertId_same _ _ _ _ _ _ hsame]
      exact ⟨hsame.trans hid, hid, fun _ _ => rfl⟩
    · obtain ⟨anns, ha⟩ := GoMap.assign_isSome secret.Annotations
        (certIdKey env.OperatorName) sslCert.ID hent
      rw [recordCertId_diff _ _ _ _ _ _ anns hsame ha]
      refine ⟨?_, hid, fun k hk => GoMap.lookup_assign_other _ _ _ _ _ ha hk⟩
      simp only [GoMap.str, GoMap.index, GoMap.lookup_assign_same _ _ _ _ ha]
      exact hid
  have hstr : ∀ k, k ≠ certIdKey env.OperatorName →
      (Update env {} secret).secret.Annotations.str k = secret.Annotations.str k := by
    intro k hk
    simp only [GoMap.str, GoMap.index, hmain.2.2 k hk]
  exact ⟨hmain.1, hmain.2.1, fun k hk => ⟨hmain.2.2 k hk, hstr k hk⟩,
    hstr _ (secretNameKey_ne_certIdKey _), hstr _ (zoneIdKey_ne_certIdKey _)⟩

/-- C2 at the scenario: after the first sync the secret and the store hold `abc`,
and `Update` returned nil. -/
theorem Update_records_id_witness :
    (Update exEnv {} exSecret).ret = Ret.nil ∧
    (Update exEnv {} exSecret).secret.Annotations.str (certIdKey exEnv.OperatorName) = "abc" ∧
    (Update exEnv {} exSecret).store.CertId = "abc" :=
  have h := Update_records_id exEnv exSecret "abc" rfl
    ⟨Event.CreateSSL ⟨"k3y", "ops@example.com"⟩ "zone123" ⟨"CHAIN", "KEY"⟩ (Result.ok ⟨"abc"⟩),
      by decide, rfl⟩
  ⟨by decide, h.1, h.2.1⟩

/-- C3. From an empty store, when the certificate carries the annotations of
the secret and the Cloudflare certificate call of `Update` answered id `X`: if
`X` is the value the secret reads at the cert-id key, `Update` makes no
persistence call and leaves the secret as it was; if it is not, `Update` makes
exactly one persistence call, and the secret that call is given already reads
`X` at the cert-id key. -/
theorem Update_persists_iff_id_changed (env : Env) (secret : Secret) (X : String)
    (hAnn : (env.ParseSecret secret).Annotations = secret.Annotations)
    (hX : ∃ ev ∈ (Update env {} secret).trace, ev.sslId = some X) :
    (X = secret.Annotations.str (certIdKey env.OperatorName) →
      (Update env {} secret).trace.filter Event.isSecretsUpdate = [] ∧
      (Update env {} secret).secret = secret) ∧
    (X ≠ secret.Annotations.str (certIdKey env.OperatorName) →
      ∃ anns, secret.Annotations.assign (certIdKey env.OperatorName) X = some anns ∧
        anns.str (certIdKey env.OperatorName) = X ∧
        (Update env {} secret).trace.filter Event.isSecretsUpdate =
          [Event.SecretsUpdate secret.Namespace { secret with Annotations := anns }
            (env.SecretsUpdate secret.Namespace { secret with Annotations := anns })] ∧
        (Update env {} secret).secret = { secret with Annotations := anns }) := by
  obtain ⟨hn, sslCert, tr, hid, htr, hU⟩ := Update_of_sslId env secret X hX
  subst hid
  have hc : (GetApiKey env (resolve env {} secret)).1.CertId =
      secret.Annotations.str (certIdKey env.OperatorName) := by
    rw [(GetApiKey_keeps env _).2.2.2, (resolve_empty_ids env secret).2, hAnn]
  have hent : secret.Annotations.entries ≠ none := by
    rw [← hAnn]
    exact entries_ne_none_of_name env secret hn
  have hfilter : tr.filter Event.isSecretsUpdate = [] := by
    rw [List.filter_eq_nil_iff]
    intro ev hev
    simp [htr ev hev]
  rw [hU, hc]
  constructor
  · intro hsame
    rw [recordCertId_same _ _ _ _ _ _ hsame.symm]
    exact ⟨hfilter, rfl⟩
  · intro hdiff
    obtain ⟨anns, ha⟩ := GoMap.assign_isSome secret.Annotations
      (certIdKey env.OperatorName) sslCert.ID hent
    rw [recordCertId_diff _ _ _ _ _ _ anns (Ne.symm hdiff) ha]
    refine ⟨anns, ha, ?_, ?_, rfl⟩
    · simp only [GoMap.str, GoMap.index, GoMap.lookup_assign_same _ _ _ _ ha]
      rfl
    · simp only [List.filter_append, hfilter, List.nil_append]
      rfl

/-- C3 at the secret that already records `abc`, with the remote update
answering `abc` again: no persistence call, the secret untouched. -/
theorem Update_persists_iff_id_changed_witness :
    (Update exEnv {} exSyncedSecret).trace.filter Event.isSecretsUpdate = [] ∧
    (Update exEnv {} exSyncedSecret).secret = exSyncedSecret :=
  (Update_persists_iff_id_changed exEnv exSyncedSecret "abc" rfl
    ⟨Event.UpdateSSL ⟨"k3y", "ops@example.com"⟩ "zone123" "abc" ⟨"CHAIN", "KEY"⟩
      (Result.ok ⟨"abc"⟩), by decide, rfl⟩).1 (by decide)

/-- C4. For every namespace `ns` and name `n`, neither empty nor containing the
separator, from an empty store, when the certificate carries the annotations of
the secret: if the secret-name annotation is `ns/n`, the first call of `Update`,
and its only fetch, is the fetch of the secret named `n` in namespace `ns`; if
the annotation is the bare `n`, it is the fetch of the secret named `n` in the
namespace of the certificate secret. -/
theorem Update_fetches_referenced_secret (env : Env) (secret : Secret) (ns n : String)
    (hns : ns ≠ "") (hn : n ≠ "") (hns1 : '/' ∉ ns.data) (hn1 : '/' ∉ n.data)
    (hAnn : (env.ParseSecret secret).Annotations = secret.Annotations) :
    (secret.Annotations.str (secretNameKey env.OperatorName) = ns ++ "/" ++ n →
      (Update env {} secret).trace.head? =
        some (Event.SecretsGet ns n (env.SecretsGet ns n)) ∧
      (Update env {} secret).trace.filter Event.isSecretsGet =
        [Event.SecretsGet ns n (env.SecretsGet ns n)]) ∧
    (secret.Annotations.str (secretNameKey env.OperatorName) = n →
      (Update env {} secret).trace.head? =
        some (Event.SecretsGet secret.Namespace n (env.SecretsGet secret.Namespace n)) ∧
      (Update env {} secret).trace.filter Event.isSecretsGet =
        [Event.SecretsGet secret.Namespace n (env.SecretsGet secret.Namespace n)]) := by
  constructor
  · intro h
    obtain ⟨h1, h2⟩ := resolve_empty_of_pair env secret ns n (by rw [hAnn]; exact h) hns1 hn1
    rw [if_neg hns] at h2
    have h3 := Update_trace_get env {} secret (by rw [h1]; exact hn)
    unfold getEvent at h3
    rw [h1, h2] at h3
    exact h3
  · intro h
    obtain ⟨h1, h2⟩ := resolve_empty_of_bare env secret n (by rw [hAnn]; exact h) hn1
    have h3 := Update_trace_get env {} secret (by rw [h1]; exact hn)
    unfold getEvent at h3
    rw [h1, h2] at h3
    exact h3

/-- C4 at the two references of the specification: `ops/tls-creds` is fetched
as `tls-creds` in `ops`, and the bare `tls-creds` of a secret in namespace `web`
as `tls-creds` in `web`. -/
theorem Update_fetches_referenced_secret_witness :
    (Update exEnv {} { exBareSecret with
        Annotations := ⟨some [(secretNameKey exOperatorName, "ops/tls-creds")]⟩ }).trace.head? =
      some (Event.SecretsGet "ops" "tls-creds"
        (Result.err (GoError.collaborator "secrets not found"))) ∧
    (Update exEnv {} exBareSecret).trace.head? =
      some (Event.SecretsGet "web" "tls-creds"
        (Result.err (GoError.collaborator "secrets not found"))) :=
  ⟨((Update_fetches_referenced_secret exEnv { exBareSecret with
        Annotations := ⟨some [(secretNameKey exOperatorName, "ops/tls-creds")]⟩ }
      "ops" "tls-creds" (by decide) (by decide) (by decide) (by decide) rfl).1
        (by decide)).1,
   ((Update_fetches_referenced_secret exEnv exBareSecret "ops" "tls-creds"
      (by decide) (by decide) (by decide) (by decide) rfl).2 (by decide)).1⟩

end Cloudflare
